import Mathlib

/-!
Verification of the manifest-generation pipeline of
`darthmaim/generate-loading-screen` (`src/main.ts`).

The pipeline scans a directory of add-on descriptor files, validates each
one, merges carry-forward fields from a pre-existing manifest, resolves
each add-on through one of two host-specific resolvers, and serializes the
result.

Modelling conventions:
* The descriptor validator (`toml.parse` + `addonSchema.parse`), the two
  resolvers (`updateFromGithub`, `updateStandalone`) and the logger
  (`core.error` / `core.warning` / `console`) are external collaborators;
  they are passed to the pipeline as function parameters, and log output
  is collected as an explicit list of entries.
* The file system is an explicit association of paths to nodes.  File
  contents are structured values: a file written as `JSON.stringify(v)` is
  stored as the document `v` itself, and `JSON.parse` of such a file
  yields `v` back (the stringify/parse round trip is a property of the
  JavaScript standard library, outside this repository).  Arbitrary
  non-JSON text (such as the TOML descriptor files) is stored as `raw`.
* In-place mutation of add-on records is modelled by explicit state
  passing: every mutating step returns the updated record or list.
* JavaScript dynamic behaviour that the source relies on is modelled
  explicitly: `for...of` over a non-iterable value is an error
  (`jsIterate`), and loading a manifest entry reads exactly the fields the
  source accesses (`decodeOldEntry`); a stored field whose value is
  outside the schema type is surfaced as a load error there.
-/

set_option autoImplicit false

namespace GenerateLoadingScreen

/-- JSON documents, as produced by `JSON.stringify` and consumed by
`JSON.parse`. -/
inductive Json where
  | null
  | bool (b : Bool)
  | num (n : Int)
  | str (s : String)
  | arr (elems : List Json)
  | obj (fields : List (String × Json))
  deriving Repr

/-- Connection parameters for the github resolver (opaque to the
pipeline; the schema that produces them is external). -/
structure GithubParams where
  data : String
  deriving Repr, DecidableEq

/-- Connection parameters for the standalone resolver (opaque to the
pipeline). -/
structure StandaloneParams where
  data : String
  deriving Repr, DecidableEq

/-- The `host` object of an add-on.  The source dispatches with
`'github' in addon.host` and `'standalone' in addon.host`, so the model
keeps both keys optional. -/
structure Host where
  github : Option GithubParams
  standalone : Option StandaloneParams
  deriving Repr, DecidableEq

/-- The immutable identity block of an add-on descriptor. -/
structure Package where
  id : String
  name : String
  deriving Repr, DecidableEq

/-- One add-on record (`Addon` of `src/schema`): identity, host
parameters, and the three mutable fields `release`, `prerelease` and
`addon_names`. -/
structure Addon where
  package : Package
  host : Host
  release : Option String := none
  prerelease : Option String := none
  addon_names : Option (List String) := none
  deriving Repr, DecidableEq

/-- The `addAddonName` helper of `src/main.ts`: initialize `addon_names`
to `[name]` when unset, otherwise append `name` unless already present.
The source mutates `addon` in place; the model returns the updated
record. -/
def addAddonName (addon : Addon) (name : String) : Addon :=
  match addon.addon_names with
  | none => { addon with addon_names := some [name] }
  | some names =>
    if name ∈ names then addon
    else { addon with addon_names := some (names ++ [name]) }

/-- Result of one resolver invocation: the (possibly partially mutated)
add-on record, and the thrown error message when the resolver failed. -/
def ResolverResult : Type := Addon × Option String

/-- A resolver: takes the add-on record and the variant-specific
parameters, returns the mutated record and an optional thrown error. -/
def GithubResolver : Type := Addon → GithubParams → ResolverResult

/-- A standalone resolver, same contract as `GithubResolver`. -/
def StandaloneResolver : Type := Addon → StandaloneParams → ResolverResult

/-- The `update` dispatch of `src/main.ts`: the `github` key is checked
first, then `standalone`; when neither key is present the function does
nothing. -/
def update (gh : GithubResolver) (st : StandaloneResolver) (addon : Addon) :
    ResolverResult :=
  match addon.host.github with
  | some params => gh addon params
  | none =>
    match addon.host.standalone with
    | some params => st addon params
    | none => (addon, none)

/-- Content of a file on disk.  `raw` is arbitrary non-JSON text (the
TOML descriptor files); `jsonDoc v` is the text `JSON.stringify v`. -/
inductive Content where
  | raw (s : String)
  | jsonDoc (j : Json)

/-- A file-system node: a regular file with its content, a directory
with its entry names in enumeration order, or a node that exists but
whose read throws (permission error). -/
inductive FSNode where
  | file (content : Content)
  | dir (entries : List String)
  | unreadable

/-- A file system: an association of absolute paths to nodes. -/
structure FileSystem where
  nodes : List (String × FSNode)

/-- Look up the node stored at a path. -/
def FileSystem.lookup (fs : FileSystem) (p : String) : Option FSNode :=
  (fs.nodes.find? (fun e => e.1 = p)).map (·.2)

/-- Store a file at a path, replacing any previous node there. -/
def FileSystem.write (fs : FileSystem) (p : String) (c : Content) :
    FileSystem :=
  ⟨(p, FSNode.file c) :: fs.nodes.filter (fun e => ¬ e.1 = p)⟩

/-- The `fs.existsSync` check: the path maps to some node. -/
def existsSync (fs : FileSystem) (p : String) : Bool :=
  (fs.lookup p).isSome

/-- The `fs.readdirSync` call: entry names of a directory; throws
`ENOTDIR` on a regular file and `ENOENT` on a missing path. -/
def readdirSync (fs : FileSystem) (p : String) : Except String (List String) :=
  match fs.lookup p with
  | some (FSNode.dir entries) => Except.ok entries
  | some _ => Except.error ("ENOTDIR: not a directory, scandir " ++ p)
  | none => Except.error ("ENOENT: no such file or directory, scandir " ++ p)

/-- The `fs.readFileSync` call: content of a regular file; throws on a
directory, an unreadable node, or a missing path. -/
def readFileSync (fs : FileSystem) (p : String) : Except String Content :=
  match fs.lookup p with
  | some (FSNode.file c) => Except.ok c
  | some (FSNode.dir _) =>
    Except.error ("EISDIR: illegal operation on a directory, read " ++ p)
  | some FSNode.unreadable =>
    Except.error ("EACCES: permission denied, open " ++ p)
  | none => Except.error ("ENOENT: no such file or directory, open " ++ p)

/-- The `path.join(addonsPath, fileName)` call, modelled as plain
separator concatenation. -/
def pathJoin (dir fileName : String) : String :=
  dir ++ "/" ++ fileName

/-- Outcome of the external descriptor validator
(`addonSchema.parse(toml.parse(content))`): a typed add-on record, a
zod validation error carrying the messages of its `errors` list, or any
other thrown error (which `isZodErrorLike` rejects and the pipeline
rethrows). -/
inductive ParseResult where
  | ok (a : Addon)
  | zodError (messages : List String)
  | fatal (msg : String)

/-- The external validator, as consumed by the pipeline. -/
def Validator : Type := Content → ParseResult

/-- One emitted log entry: `core.error` (with its optional file
property), `core.warning`, or a `console` line. -/
inductive LogEntry where
  | error (message : String) (file : Option String)
  | warning (message : String)
  | console (line : String)
  deriving Repr, DecidableEq

/-- Log entries emitted for one descriptor file that failed zod
validation: for each message of the error list, a `core.error` with the
file path and a `console.error` line. -/
def zodLogs (addonsPath fileName : String) (messages : List String) :
    List LogEntry :=
  messages.flatMap (fun m =>
    [LogEntry.error m (some (pathJoin addonsPath fileName)),
     LogEntry.console (fileName ++ ": " ++ m)])

/-- The descriptor scan loop of `generateManifest`: for each file name,
read the file and validate it.  A validation failure records its errors,
sets the failure flag and continues; any other failure stops the scan
and is returned as the fatal error.  Returns the collected add-ons, the
failure flag, the log entries, and the fatal error if one occurred. -/
def scanFiles (validate : Validator) (fs : FileSystem) (addonsPath : String) :
    List String → List Addon → Bool → List LogEntry →
    List Addon × Bool × List LogEntry × Option String
  | [], addons, flag, logs => (addons, flag, logs, none)
  | fileName :: rest, addons, flag, logs =>
    match readFileSync fs (pathJoin addonsPath fileName) with
    | Except.error e => (addons, flag, logs, some e)
    | Except.ok content =>
      match validate content with
      | ParseResult.ok a =>
        scanFiles validate fs addonsPath rest (addons ++ [a]) flag logs
      | ParseResult.zodError messages =>
        scanFiles validate fs addonsPath rest addons true
          (logs ++ zodLogs addonsPath fileName messages)
      | ParseResult.fatal msg => (addons, flag, logs, some msg)

/-- Serialization of one optional string field: `JSON.stringify` omits
properties whose value is `undefined`. -/
def optStrField (key : String) : Option String → List (String × Json)
  | none => []
  | some s => [(key, Json.str s)]

/-- Serialization of the `host` object. -/
def hostToJson (h : Host) : Json :=
  Json.obj
    ((match h.github with
      | none => []
      | some p => [("github", Json.str p.data)]) ++
     (match h.standalone with
      | none => []
      | some p => [("standalone", Json.str p.data)]))

/-- Serialization of one add-on record, following `JSON.stringify` on
the record: `undefined` fields are omitted. -/
def addonToJson (a : Addon) : Json :=
  Json.obj
    ([("package", Json.obj [("id", Json.str a.package.id),
                            ("name", Json.str a.package.name)]),
      ("host", hostToJson a.host)] ++
     optStrField "release" a.release ++
     optStrField "prerelease" a.prerelease ++
     (match a.addon_names with
      | none => []
      | some names => [("addon_names", Json.arr (names.map Json.str))]))

/-- Serialization of the final manifest object `\x7b addons \x7d`. -/
def manifestToJson (addons : List Addon) : Json :=
  Json.obj [("addons", Json.arr (addons.map addonToJson))]

/-- The `JSON.parse` call on a file content: a stored JSON document
parses back to itself; non-JSON text throws a syntax error. -/
def jsonParse (c : Content) : Except String Json :=
  match c with
  | Content.jsonDoc j => Except.ok j
  | Content.raw _ => Except.error "SyntaxError: Unexpected token in JSON"

/-- JavaScript `for...of` over a parsed JSON value: arrays iterate their
elements, strings iterate their characters, and every other value throws
a TypeError. -/
def jsIterate (j : Json) : Except String (List Json) :=
  match j with
  | Json.arr elems => Except.ok elems
  | Json.str s => Except.ok (s.data.map (fun ch => Json.str (String.mk [ch])))
  | _ => Except.error "TypeError: existingManifest is not iterable"

/-- The fields the merge step reads from one entry of the loaded
manifest: `package.id`, `release`, `prerelease`, `addon_names`. -/
structure OldEntry where
  id : String
  release : Option String
  prerelease : Option String
  addon_names : Option (List String)
  deriving Repr, DecidableEq

/-- Decode a JSON array of strings. -/
def decodeStrList : List Json → Option (List String)
  | [] => some []
  | Json.str s :: rest => (decodeStrList rest).map (s :: ·)
  | _ => none

/-- Decoding of one loaded manifest entry, reading exactly the fields
the merge step accesses.  A stored field whose value falls outside the
schema type (which untyped JavaScript would carry through verbatim) is
surfaced as a load error here; every entry produced by `addonToJson`
decodes exactly. -/
def decodeOldEntry (j : Json) : Except String OldEntry :=
  match j with
  | Json.obj fields =>
    match (fields.find? (fun f => f.1 = "package")).map (·.2) with
    | some (Json.obj pkgFields) =>
      match (pkgFields.find? (fun f => f.1 = "id")).map (·.2) with
      | some (Json.str id) =>
        let rel := (fields.find? (fun f => f.1 = "release")).map (·.2)
        let pre := (fields.find? (fun f => f.1 = "prerelease")).map (·.2)
        let names := (fields.find? (fun f => f.1 = "addon_names")).map (·.2)
        match rel, pre, names with
        | none, none, none => Except.ok ⟨id, none, none, none⟩
        | some (Json.str r), none, none => Except.ok ⟨id, some r, none, none⟩
        | none, some (Json.str p), none => Except.ok ⟨id, none, some p, none⟩
        | none, none, some (Json.arr ns) =>
          match decodeStrList ns with
          | some l => Except.ok ⟨id, none, none, some l⟩
          | none => Except.error "malformed manifest entry"
        | some (Json.str r), some (Json.str p), none =>
          Except.ok ⟨id, some r, some p, none⟩
        | some (Json.str r), none, some (Json.arr ns) =>
          match decodeStrList ns with
          | some l => Except.ok ⟨id, some r, none, some l⟩
          | none => Except.error "malformed manifest entry"
        | none, some (Json.str p), some (Json.arr ns) =>
          match decodeStrList ns with
          | some l => Except.ok ⟨id, none, some p, some l⟩
          | none => Except.error "malformed manifest entry"
        | some (Json.str r), some (Json.str p), some (Json.arr ns) =>
          match decodeStrList ns with
          | some l => Except.ok ⟨id, some r, some p, some l⟩
          | none => Except.error "malformed manifest entry"
        | _, _, _ => Except.error "malformed manifest entry"
      | _ => Except.error "malformed manifest entry"
    | _ => Except.error "malformed manifest entry"
  | _ => Except.error "malformed manifest entry"

/-- The three in-place assignments of the merge step: overwrite the
found add-on's `release`, `prerelease` and `addon_names` with the old
entry's values (complete replacement, no deep merge). -/
def carryOnto (a : Addon) (e : OldEntry) : Addon :=
  { a with
      release := e.release
      prerelease := e.prerelease
      addon_names := e.addon_names }

/-- Carry the three fields of one old entry onto the first add-on of the
list whose `package.id` matches (`addons.find` followed by in-place
assignment in the source); `none` when no add-on matches. -/
def carryFirst (e : OldEntry) : List Addon → Option (List Addon)
  | [] => none
  | a :: rest =>
    if a.package.id = e.id then some (carryOnto a e :: rest)
    else (carryFirst e rest).map (a :: ·)

/-- The fields of one serialized old add-on, as the merge loop sees
them. -/
def entryOf (o : Addon) : OldEntry :=
  ⟨o.package.id, o.release, o.prerelease, o.addon_names⟩

/-- The merge loop over the loaded manifest entries: decode each entry
(a decode failure aborts, like the member access it stands for), carry
its fields onto the first matching add-on, or warn when no add-on
matches. -/
def mergeExisting : List Json → List Addon → List LogEntry →
    List Addon × List LogEntry × Option String
  | [], addons, logs => (addons, logs, none)
  | j :: rest, addons, logs =>
    match decodeOldEntry j with
    | Except.error e => (addons, logs, some e)
    | Except.ok entry =>
      match carryFirst entry addons with
      | some addons1 => mergeExisting rest addons1 logs
      | none =>
        mergeExisting rest addons
          (logs ++ [LogEntry.warning
            ("Addon " ++ entry.id ++ " was removed from manifest!")])

/-- The carry-forward step of `generateManifest`: when a manifest path
is given and a file exists there, read it, `JSON.parse` it, iterate it
and merge its entries onto the new batch; otherwise leave the batch
unchanged. -/
def loadAndMerge (fs : FileSystem) (manifestPath : Option String)
    (addons : List Addon) (logs : List LogEntry) :
    List Addon × List LogEntry × Option String :=
  match manifestPath with
  | none => (addons, logs, none)
  | some mp =>
    if existsSync fs mp then
      match readFileSync fs mp with
      | Except.error e => (addons, logs, some e)
      | Except.ok content =>
        match jsonParse content with
        | Except.error e => (addons, logs, some e)
        | Except.ok j =>
          match jsIterate j with
          | Except.error e => (addons, logs, some e)
          | Except.ok entries => mergeExisting entries addons logs
    else (addons, logs, none)

/-- The resolution loop of `generateManifest`: each add-on is updated
through the `update` dispatch; a thrown resolver error is caught per
add-on, logged with the add-on name (`core.error` and `console.log`),
and the loop continues with the next add-on. -/
def resolveAll (gh : GithubResolver) (st : StandaloneResolver) :
    List Addon → List Addon × List LogEntry
  | [] => ([], [])
  | a :: rest =>
    let r := update gh st a
    let restR := resolveAll gh st rest
    match r.2 with
    | none => (r.1 :: restR.1, restR.2)
    | some msg =>
      let line := "Addon " ++ r.1.package.name ++ " failed to update: " ++ msg
      (r.1 :: restR.1,
       LogEntry.error line none :: LogEntry.console line :: restR.2)

/-- Observable outcome of one `generateManifest` run: the resulting
file system, the emitted log entries, the manifest printed to standard
output (when no manifest path was given), and the run result (`ok` or
the thrown error message). -/
structure RunResult where
  fs : FileSystem
  logs : List LogEntry
  stdoutManifest : Option Json
  result : Except String Unit

/-- The `generateManifest` pipeline of `src/main.ts`, with the external
validator and the two resolvers as parameters and the file system as
explicit state:

1. throw when `addonsPath` does not exist (`fs.existsSync`);
2. throw when `manifestPath` is the empty string;
3. enumerate the addon directory and scan every file (`scanFiles`);
4. throw when any add-on failed validation;
5. load and merge a pre-existing manifest (`loadAndMerge`);
6. resolve every add-on, tolerating per-add-on failure (`resolveAll`);
7. write the manifest to `manifestPath`, or print it to standard output
   when no path was given. -/
def generateManifest (validate : Validator) (gh : GithubResolver)
    (st : StandaloneResolver) (fs : FileSystem) (addonsPath : String)
    (manifestPath : Option String) : RunResult :=
  if ¬ existsSync fs addonsPath then
    ⟨fs, [], none,
     Except.error ("Addon directory does not exist: " ++ addonsPath)⟩
  else if manifestPath = some "" then
    ⟨fs, [], none,
     Except.error "Invalid manifest path. Set to undefined to output to STDOUT."⟩
  else
    match readdirSync fs addonsPath with
    | Except.error e => ⟨fs, [], none, Except.error e⟩
    | Except.ok fileNames =>
      match scanFiles validate fs addonsPath fileNames [] false [] with
      | (_, _, logs, some e) => ⟨fs, logs, none, Except.error e⟩
      | (addons, flag, logs, none) =>
        if flag then
          ⟨fs, logs, none, Except.error "Validation of some addons failed"⟩
        else
          match loadAndMerge fs manifestPath addons logs with
          | (_, logs1, some e) => ⟨fs, logs1, none, Except.error e⟩
          | (merged, logs1, none) =>
            let resolved := resolveAll gh st merged
            let logs2 := logs1 ++ resolved.2
            match manifestPath with
            | some mp =>
              ⟨fs.write mp (Content.jsonDoc (manifestToJson resolved.1)),
               logs2, none, Except.ok ()⟩
            | none =>
              ⟨fs, logs2, some (manifestToJson resolved.1), Except.ok ()⟩

/-! Concrete fixtures used to instantiate the theorems below. -/

/-- A minimal valid add-on with no host keys and no resolved fields. -/
def sampleAddon : Addon :=
  { package := ⟨"a", "Addon A"⟩, host := ⟨none, none⟩ }

/-- A second add-on with a different id. -/
def sampleAddonB : Addon :=
  { package := ⟨"b", "Addon B"⟩, host := ⟨none, none⟩ }

/-- A validator that accepts every content as the given add-on. -/
def alwaysValid (a : Addon) : Validator :=
  fun _ => ParseResult.ok a

/-- A github resolver that changes nothing and never fails. -/
def ghNoop : GithubResolver := fun a _ => (a, none)

/-- A standalone resolver that changes nothing and never fails. -/
def stNoop : StandaloneResolver := fun a _ => (a, none)

/-- A file system with one addon directory holding one descriptor. -/
def fsSingle : FileSystem :=
  ⟨[("addons", FSNode.dir ["a.toml"]),
    ("addons/a.toml", FSNode.file (Content.raw "t"))]⟩

/-- A file system where the addons path is a regular file. -/
def fsFileAtAddons : FileSystem :=
  ⟨[("addons", FSNode.file (Content.raw "t"))]⟩

/-- First pipeline run of the round-trip scenario: a fresh manifest is
generated and written to `manifest.json`. -/
def roundTripFirstRun : RunResult :=
  generateManifest (alwaysValid sampleAddon) ghNoop stNoop fsSingle
    "addons" (some "manifest.json")

/-- Second pipeline run of the round-trip scenario: the identical batch
is processed again against the manifest written by the first run. -/
def roundTripSecondRun : RunResult :=
  generateManifest (alwaysValid sampleAddon) ghNoop stNoop
    roundTripFirstRun.fs "addons" (some "manifest.json")

/-- A descriptor file is benign for the scan when its read succeeds and
its validation either succeeds or fails with a zod validation error
(never with another thrown error). -/
def scanBenign (validate : Validator) (fs : FileSystem)
    (addonsPath fileName : String) : Prop :=
  ∃ c, readFileSync fs (pathJoin addonsPath fileName) = Except.ok c ∧
    ((∃ a, validate c = ParseResult.ok a) ∨
     (∃ msgs, validate c = ParseResult.zodError msgs))

/-- A github resolver that records a partial mutation and then fails. -/
def ghFail : GithubResolver :=
  fun a _ => ({ a with release := some "partial" }, some "network down")

/-- An add-on whose host carries the github key. -/
def addonG : Addon :=
  { package := ⟨"g", "G"⟩, host := ⟨some ⟨"p"⟩, none⟩ }

/-- An old manifest entry for id `a` carrying resolved fields. -/
def oldCarry : Addon :=
  { package := ⟨"a", "Addon A"⟩
    host := ⟨none, none⟩
    release := some "1.2.0"
    prerelease := none
    addon_names := some ["Foo"] }

/-- A second fresh add-on with the same id `a` as `sampleAddon`. -/
def dupAddon : Addon :=
  { package := ⟨"a", "Addon A duplicate"⟩, host := ⟨none, none⟩ }

end GenerateLoadingScreen

namespace GenerateLoadingScreen

/-- C6: `addAddonName` initializes `addon_names` to `[name]` when unset,
appends a missing name at the end preserving order, leaves the record
unchanged when the name is already present, is idempotent, and two
distinct fresh names end up both present in call order. -/
theorem c6_addAddonName_spec (addon : Addon) (name n1 n2 : String) :
    (addon.addon_names = none →
      (addAddonName addon name).addon_names = some [name]) ∧
    (∀ names, addon.addon_names = some names → name ∉ names →
      (addAddonName addon name).addon_names = some (names ++ [name])) ∧
    (∀ names, addon.addon_names = some names → name ∈ names →
      addAddonName addon name = addon) ∧
    addAddonName (addAddonName addon name) name = addAddonName addon name ∧
    (addon.addon_names = none → n1 ≠ n2 →
      (addAddonName (addAddonName addon n1) n2).addon_names
        = some [n1, n2]) ∧
    (∀ names, addon.addon_names = some names → n1 ∉ names → n2 ∉ names →
      n1 ≠ n2 →
      (addAddonName (addAddonName addon n1) n2).addon_names
        = some (names ++ [n1, n2])) := by
  obtain ⟨pkg, host, rel, pre, names?⟩ := addon
  cases names? with
  | none =>
    refine ⟨fun _ => rfl, ?_, ?_, ?_, ?_, ?_⟩
    · intro names h; cases h
    · intro names h; cases h
    · simp [addAddonName]
    · intro _ hne
      simp [addAddonName, List.mem_singleton, Ne.symm hne]
    · intro names h; cases h
  | some names =>
    refine ⟨?_, ?_, ?_, ?_, ?_, ?_⟩
    · intro h; cases h
    · intro names1 h hmem
      cases h
      simp [addAddonName, hmem]
    · intro names1 h hmem
      cases h
      simp [addAddonName, hmem]
    · by_cases hmem : name ∈ names
      · simp [addAddonName, hmem]
      · simp [addAddonName, hmem]
    · intro h; cases h
    · intro names1 h h1 h2 hne
      cases h
      simp [addAddonName, h1, h2, Ne.symm hne]

/-- C6 witness: concrete instantiation on an add-on with unset names and
two distinct fresh names. -/
theorem c6_addAddonName_spec_witness :
    (addAddonName (addAddonName sampleAddon "x") "y").addon_names
      = some ["x", "y"] :=
  (c6_addAddonName_spec sampleAddon "x" "x" "y").2.2.2.2.1 rfl
    (by decide)

/-- C10: the `update` dispatch invokes the github resolver whenever the
`github` key is present (regardless of the `standalone` key); with
neither key present, no resolver runs, no error is raised, and the
add-on is returned unchanged. -/
theorem c10_update_dispatch (gh : GithubResolver) (st : StandaloneResolver)
    (a : Addon) :
    (∀ p, a.host.github = some p → update gh st a = gh a p) ∧
    (∀ p, a.host.github = none → a.host.standalone = some p →
      update gh st a = st a p) ∧
    (a.host.github = none → a.host.standalone = none →
      update gh st a = (a, none)) := by
  refine ⟨?_, ?_, ?_⟩
  · intro p hp; simp [update, hp]
  · intro p hg hp; simp [update, hg, hp]
  · intro hg hs; simp [update, hg, hs]

/-- C10 witness: with both host keys present the github resolver wins,
and with neither key the add-on comes back unchanged with no error. -/
theorem c10_update_dispatch_witness :
    update (fun a _ => ({ a with release := some "gh" }, none))
        (fun a _ => ({ a with release := some "st" }, none))
        { sampleAddon with host := ⟨some ⟨"g"⟩, some ⟨"s"⟩⟩ }
      = ({ sampleAddon with
             release := some "gh",
             host := ⟨some ⟨"g"⟩, some ⟨"s"⟩⟩ }, none) ∧
    update ghNoop stNoop sampleAddon = (sampleAddon, none) :=
  ⟨(c10_update_dispatch (fun a _ => ({ a with release := some "gh" }, none))
      (fun a _ => ({ a with release := some "st" }, none))
      { sampleAddon with host := ⟨some ⟨"g"⟩, some ⟨"s"⟩⟩ }).1 ⟨"g"⟩ rfl,
   (c10_update_dispatch ghNoop stNoop sampleAddon).2.2 rfl rfl⟩

/-- C2 counterexample: when the addons path exists as a regular file,
the existence check passes and the run fails with the directory-read
error, not with the configuration error the claim requires; so the claim
is false for this input. -/
theorem c2_file_at_addons_path_not_config_error :
    (generateManifest (alwaysValid sampleAddon) ghNoop stNoop fsFileAtAddons
        "addons" none).result
      = Except.error "ENOTDIR: not a directory, scandir addons" ∧
    "ENOTDIR: not a directory, scandir addons"
      ≠ "Addon directory does not exist: addons" := by
  exact ⟨rfl, by decide⟩

/-- C2 amended: when `addonsPath` maps to no node at all,
`generateManifest` fails with the configuration error before any
scanning (file system, logs and output untouched); when `addonsPath`
exists but is a regular file, the existence check passes and the run
fails with the `ENOTDIR` error of the directory read instead. -/
theorem c2_existence_check (validate : Validator) (gh : GithubResolver)
    (st : StandaloneResolver) (fs : FileSystem) (addonsPath : String)
    (manifestPath : Option String) :
    (fs.lookup addonsPath = none →
      generateManifest validate gh st fs addonsPath manifestPath
        = ⟨fs, [], none,
           Except.error ("Addon directory does not exist: " ++ addonsPath)⟩) ∧
    (∀ c, fs.lookup addonsPath = some (FSNode.file c) →
      manifestPath ≠ some "" →
      generateManifest validate gh st fs addonsPath manifestPath
        = ⟨fs, [], none,
           Except.error ("ENOTDIR: not a directory, scandir " ++ addonsPath)⟩) := by
  constructor
  · intro h
    have hex : existsSync fs addonsPath = false := by
      simp [existsSync, h]
    simp [generateManifest, hex]
  · intro c h hm
    have hex : existsSync fs addonsPath = true := by
      simp [existsSync, h]
    simp [generateManifest, hex, hm, readdirSync, h]

/-- C2 witness: concrete runs for both branches of the amended claim. -/
theorem c2_existence_check_witness :
    generateManifest (alwaysValid sampleAddon) ghNoop stNoop ⟨[]⟩
        "addons" none
      = ⟨⟨[]⟩, [], none,
         Except.error ("Addon directory does not exist: " ++ "addons")⟩ ∧
    generateManifest (alwaysValid sampleAddon) ghNoop stNoop fsFileAtAddons
        "addons" none
      = ⟨fsFileAtAddons, [], none,
         Except.error ("ENOTDIR: not a directory, scandir " ++ "addons")⟩ :=
  ⟨(c2_existence_check (alwaysValid sampleAddon) ghNoop stNoop ⟨[]⟩
      "addons" none).1 rfl,
   (c2_existence_check (alwaysValid sampleAddon) ghNoop stNoop fsFileAtAddons
      "addons" none).2 (Content.raw "t") rfl (by simp)⟩

/-- C1: the first run serializes the manifest as the object with the
`addons` key, but the carry-forward load of a subsequent run iterates
the parsed document as if it were a bare array; `for...of` over the
object throws, so the second run on the identical batch aborts with a
TypeError instead of reproducing the carried fields — and this happens
for every manifest the pipeline itself serializes. -/
theorem c1_roundtrip_reload_fails :
    roundTripFirstRun.result = Except.ok () ∧
    readFileSync roundTripFirstRun.fs "manifest.json"
      = Except.ok (Content.jsonDoc (manifestToJson [sampleAddon])) ∧
    roundTripSecondRun.result
      = Except.error "TypeError: existingManifest is not iterable" ∧
    ∀ addons : List Addon,
      jsIterate (manifestToJson addons)
        = Except.error "TypeError: existingManifest is not iterable" :=
  ⟨rfl, rfl, rfl, fun _ => rfl⟩

/-- Log entries present before the scan survive the scan. -/
theorem scanFiles_logs_mono (validate : Validator) (fs : FileSystem)
    (addonsPath : String) (l : LogEntry) :
    ∀ (files : List String) (addons : List Addon) (flag : Bool)
      (logs : List LogEntry), l ∈ logs →
      l ∈ (scanFiles validate fs addonsPath files addons flag logs).2.2.1
  | [], _, _, _, hl => hl
  | f :: rest, addons, flag, logs, hl => by
    simp only [scanFiles]
    cases hr : readFileSync fs (pathJoin addonsPath f) with
    | error e => exact hl
    | ok c =>
      dsimp only
      cases hv : validate c with
      | ok a =>
        dsimp only
        exact scanFiles_logs_mono validate fs addonsPath l rest _ _ _ hl
      | zodError msgs =>
        dsimp only
        exact scanFiles_logs_mono validate fs addonsPath l rest _ _ _
          (List.mem_append_left _ hl)
      | fatal msg => exact hl

/-- A scan over benign files never stops with a fatal error. -/
theorem scanFiles_no_fatal (validate : Validator) (fs : FileSystem)
    (addonsPath : String) :
    ∀ (files : List String) (addons : List Addon) (flag : Bool)
      (logs : List LogEntry),
      (∀ f ∈ files, scanBenign validate fs addonsPath f) →
      (scanFiles validate fs addonsPath files addons flag logs).2.2.2 = none
  | [], _, _, _, _ => rfl
  | f :: rest, addons, flag, logs, h => by
    obtain ⟨c, hc, hv⟩ := h f (List.mem_cons_self f rest)
    simp only [scanFiles, hc]
    have hrest : ∀ g ∈ rest, scanBenign validate fs addonsPath g :=
      fun g hg => h g (List.mem_cons_of_mem f hg)
    rcases hv with ⟨a, ha⟩ | ⟨msgs, hm⟩
    · rw [ha]
      exact scanFiles_no_fatal validate fs addonsPath rest _ _ _ hrest
    · rw [hm]
      exact scanFiles_no_fatal validate fs addonsPath rest _ _ _ hrest

/-- The batch failure flag is never cleared by the scan. -/
theorem scanFiles_flag_mono (validate : Validator) (fs : FileSystem)
    (addonsPath : String) :
    ∀ (files : List String) (addons : List Addon) (logs : List LogEntry),
      (scanFiles validate fs addonsPath files addons true logs).2.1 = true
  | [], _, _ => rfl
  | f :: rest, addons, logs => by
    simp only [scanFiles]
    cases hr : readFileSync fs (pathJoin addonsPath f) with
    | error e => rfl
    | ok c =>
      dsimp only
      cases hv : validate c with
      | ok a =>
        dsimp only
        exact scanFiles_flag_mono validate fs addonsPath rest _ _
      | zodError msgs =>
        dsimp only
        exact scanFiles_flag_mono validate fs addonsPath rest _ _
      | fatal msg => rfl

/-- A benign scan containing a validation failure sets the batch
failure flag. -/
theorem scanFiles_flag_set (validate : Validator) (fs : FileSystem)
    (addonsPath : String) :
    ∀ (files : List String) (addons : List Addon) (flag : Bool)
      (logs : List LogEntry),
      (∀ f ∈ files, scanBenign validate fs addonsPath f) →
      (∃ f ∈ files, ∃ c msgs,
        readFileSync fs (pathJoin addonsPath f) = Except.ok c ∧
        validate c = ParseResult.zodError msgs) →
      (scanFiles validate fs addonsPath files addons flag logs).2.1 = true
  | [], _, _, _, _, hex => by simp at hex
  | f :: rest, addons, flag, logs, h, hex => by
    have hrest : ∀ g ∈ rest, scanBenign validate fs addonsPath g :=
      fun g hg => h g (List.mem_cons_of_mem f hg)
    obtain ⟨g, hg, c, msgs, hc, hv⟩ := hex
    rcases List.mem_cons.mp hg with rfl | hgtail
    · simp only [scanFiles, hc, hv]
      exact scanFiles_flag_mono validate fs addonsPath rest _ _
    · obtain ⟨c0, hc0, hv0⟩ := h f (List.mem_cons_self f rest)
      simp only [scanFiles, hc0]
      rcases hv0 with ⟨a, ha⟩ | ⟨msgs0, hm0⟩
      · rw [ha]
        exact scanFiles_flag_set validate fs addonsPath rest _ _ _ hrest
          ⟨g, hgtail, c, msgs, hc, hv⟩
      · rw [hm0]
        exact scanFiles_flag_set validate fs addonsPath rest _ _ _ hrest
          ⟨g, hgtail, c, msgs, hc, hv⟩

/-- Every validation message of every failing file of a benign scan is
reported as a `core.error` entry naming that file. -/
theorem scanFiles_reports (validate : Validator) (fs : FileSystem)
    (addonsPath : String) :
    ∀ (files : List String) (addons : List Addon) (flag : Bool)
      (logs : List LogEntry),
      (∀ f ∈ files, scanBenign validate fs addonsPath f) →
      ∀ f ∈ files, ∀ c msgs,
        readFileSync fs (pathJoin addonsPath f) = Except.ok c →
        validate c = ParseResult.zodError msgs →
        ∀ m ∈ msgs,
          LogEntry.error m (some (pathJoin addonsPath f))
            ∈ (scanFiles validate fs addonsPath files addons flag logs).2.2.1
  | [], _, _, _, _, f, hf, c, msgs, hc, hv, m, hm => by simp at hf
  | g :: rest, addons, flag, logs, h, f, hf, c, msgs, hc, hv, m, hm => by
    have hrest : ∀ x ∈ rest, scanBenign validate fs addonsPath x :=
      fun x hx => h x (List.mem_cons_of_mem g hx)
    rcases List.mem_cons.mp hf with rfl | hftail
    · simp only [scanFiles, hc, hv]
      refine scanFiles_logs_mono validate fs addonsPath _ rest _ _ _ ?_
      refine List.mem_append_right _ ?_
      simp only [zodLogs, List.mem_flatMap]
      exact ⟨m, hm, by simp⟩
    · obtain ⟨c0, hc0, hv0⟩ := h g (List.mem_cons_self g rest)
      simp only [scanFiles, hc0]
      rcases hv0 with ⟨a, ha⟩ | ⟨msgs0, hm0⟩
      · rw [ha]
        exact scanFiles_reports validate fs addonsPath rest _ _ _ hrest
          f hftail c msgs hc hv m hm
      · rw [hm0]
        exact scanFiles_reports validate fs addonsPath rest _ _ _ hrest
          f hftail c msgs hc hv m hm

/-- C3: in a benign batch where at least one descriptor fails schema
validation, the run aborts with the batch-wide validation error, writes
nothing, prints nothing, and every validation message of every failing
file has been reported against that file. -/
theorem c3_validate_all_before_fail (validate : Validator)
    (gh : GithubResolver) (st : StandaloneResolver) (fs : FileSystem)
    (addonsPath : String) (manifestPath : Option String)
    (fileNames : List String)
    (hdir : fs.lookup addonsPath = some (FSNode.dir fileNames))
    (hmp : manifestPath ≠ some "")
    (hbenign : ∀ f ∈ fileNames, scanBenign validate fs addonsPath f)
    (hfail : ∃ f ∈ fileNames, ∃ c msgs,
      readFileSync fs (pathJoin addonsPath f) = Except.ok c ∧
      validate c = ParseResult.zodError msgs) :
    (generateManifest validate gh st fs addonsPath manifestPath).result
      = Except.error "Validation of some addons failed" ∧
    (generateManifest validate gh st fs addonsPath manifestPath).fs = fs ∧
    (generateManifest validate gh st fs addonsPath
      manifestPath).stdoutManifest = none ∧
    (∀ f ∈ fileNames, ∀ c msgs,
      readFileSync fs (pathJoin addonsPath f) = Except.ok c →
      validate c = ParseResult.zodError msgs →
      ∀ m ∈ msgs,
        LogEntry.error m (some (pathJoin addonsPath f))
          ∈ (generateManifest validate gh st fs addonsPath
              manifestPath).logs) := by
  have hex : existsSync fs addonsPath = true := by
    simp [existsSync, hdir]
  have hrd : readdirSync fs addonsPath = Except.ok fileNames := by
    simp [readdirSync, hdir]
  have hfat := scanFiles_no_fatal validate fs addonsPath fileNames [] false []
    hbenign
  have hflag := scanFiles_flag_set validate fs addonsPath fileNames [] false []
    hbenign hfail
  rcases hscan : scanFiles validate fs addonsPath fileNames [] false [] with
    ⟨A, F, L, fat⟩
  rw [hscan] at hfat hflag
  simp only at hfat hflag
  subst hfat hflag
  have hrun : generateManifest validate gh st fs addonsPath manifestPath
      = ⟨fs, L, none, Except.error "Validation of some addons failed"⟩ := by
    simp [generateManifest, hex, hmp, hrd, hscan]
  refine ⟨by rw [hrun], by rw [hrun], by rw [hrun], ?_⟩
  intro f hf c msgs hc hv m hm
  have := scanFiles_reports validate fs addonsPath fileNames [] false []
    hbenign f hf c msgs hc hv m hm
  rw [hscan] at this
  rw [hrun]
  exact this

/-- C3 witness: two descriptor files, the second failing validation
with one message; the run aborts with the validation error, leaves the
file system alone, and the failing file is reported. -/
theorem c3_validate_all_before_fail_witness :
    (generateManifest
        (fun c => match c with
          | Content.raw "bad" => ParseResult.zodError ["missing id"]
          | _ => ParseResult.ok sampleAddon)
        ghNoop stNoop
        ⟨[("addons", FSNode.dir ["a.toml", "b.toml"]),
          ("addons/a.toml", FSNode.file (Content.raw "t")),
          ("addons/b.toml", FSNode.file (Content.raw "bad"))]⟩
        "addons" none).result
      = Except.error "Validation of some addons failed" ∧
    LogEntry.error "missing id" (some "addons/b.toml")
      ∈ (generateManifest
          (fun c => match c with
            | Content.raw "bad" => ParseResult.zodError ["missing id"]
            | _ => ParseResult.ok sampleAddon)
          ghNoop stNoop
          ⟨[("addons", FSNode.dir ["a.toml", "b.toml"]),
            ("addons/a.toml", FSNode.file (Content.raw "t")),
            ("addons/b.toml", FSNode.file (Content.raw "bad"))]⟩
          "addons" none).logs := by
  have h := c3_validate_all_before_fail
    (fun c => match c with
      | Content.raw "bad" => ParseResult.zodError ["missing id"]
      | _ => ParseResult.ok sampleAddon)
    ghNoop stNoop
    ⟨[("addons", FSNode.dir ["a.toml", "b.toml"]),
      ("addons/a.toml", FSNode.file (Content.raw "t")),
      ("addons/b.toml", FSNode.file (Content.raw "bad"))]⟩
    "addons" none ["a.toml", "b.toml"] rfl (by simp)
    (by
      intro f hf
      rcases List.mem_cons.mp hf with rfl | hf
      · exact ⟨Content.raw "t", rfl, Or.inl ⟨sampleAddon, rfl⟩⟩
      · rcases List.mem_cons.mp hf with rfl | hf
        · exact ⟨Content.raw "bad", rfl, Or.inr ⟨["missing id"], rfl⟩⟩
        · simp at hf)
    ⟨"b.toml", by simp, Content.raw "bad", ["missing id"], rfl, rfl⟩
  exact ⟨h.1, h.2.2.2 "b.toml" (by simp) (Content.raw "bad") ["missing id"]
    rfl rfl "missing id" (by simp)⟩

/-- A scan that reaches a file failing for a non-validation reason stops
there with that error: the scan of the remaining files is never run, so
the outcome is the same as if the file list ended at the failing file. -/
theorem scanFiles_fatal_stops (validate : Validator) (fs : FileSystem)
    (addonsPath : String) (f : String) (post : List String) (e : String)
    (hfatal : readFileSync fs (pathJoin addonsPath f) = Except.error e ∨
      ∃ c, readFileSync fs (pathJoin addonsPath f) = Except.ok c ∧
        validate c = ParseResult.fatal e) :
    ∀ (pre : List String) (addons : List Addon) (flag : Bool)
      (logs : List LogEntry),
      (∀ g ∈ pre, scanBenign validate fs addonsPath g) →
      scanFiles validate fs addonsPath (pre ++ f :: post) addons flag logs
        = scanFiles validate fs addonsPath (pre ++ [f]) addons flag logs ∧
      (scanFiles validate fs addonsPath (pre ++ [f]) addons flag
        logs).2.2.2 = some e
  | [], addons, flag, logs, _ => by
    rcases hfatal with hr | ⟨c, hr, hv⟩
    · constructor <;> simp only [List.nil_append, scanFiles, hr]
    · constructor <;> simp only [List.nil_append, scanFiles, hr, hv]
  | g :: pre, addons, flag, logs, h => by
    obtain ⟨c0, hc0, hv0⟩ := h g (List.mem_cons_self g pre)
    have hpre : ∀ x ∈ pre, scanBenign validate fs addonsPath x :=
      fun x hx => h x (List.mem_cons_of_mem g hx)
    simp only [List.cons_append, scanFiles, hc0]
    rcases hv0 with ⟨a, ha⟩ | ⟨msgs, hm⟩
    · rw [ha]
      exact scanFiles_fatal_stops validate fs addonsPath f post e hfatal
        pre _ _ _ hpre
    · rw [hm]
      exact scanFiles_fatal_stops validate fs addonsPath f post e hfatal
        pre _ _ _ hpre

/-- C7: a file that fails for a non-validation reason (unreadable, or a
thrown error the zod check rejects) aborts the whole run with that very
error; the files after it are never scanned (the scan outcome equals the
outcome with them removed), no manifest is written and nothing is
printed. -/
theorem c7_fail_fast_non_validation (validate : Validator)
    (gh : GithubResolver) (st : StandaloneResolver) (fs : FileSystem)
    (addonsPath : String) (manifestPath : Option String)
    (pre : List String) (f : String) (post : List String) (e : String)
    (hdir : fs.lookup addonsPath = some (FSNode.dir (pre ++ f :: post)))
    (hmp : manifestPath ≠ some "")
    (hbenign : ∀ g ∈ pre, scanBenign validate fs addonsPath g)
    (hfatal : readFileSync fs (pathJoin addonsPath f) = Except.error e ∨
      ∃ c, readFileSync fs (pathJoin addonsPath f) = Except.ok c ∧
        validate c = ParseResult.fatal e) :
    (generateManifest validate gh st fs addonsPath manifestPath).result
      = Except.error e ∧
    (generateManifest validate gh st fs addonsPath manifestPath).fs = fs ∧
    (generateManifest validate gh st fs addonsPath
      manifestPath).stdoutManifest = none ∧
    scanFiles validate fs addonsPath (pre ++ f :: post) [] false []
      = scanFiles validate fs addonsPath (pre ++ [f]) [] false [] := by
  have hex : existsSync fs addonsPath = true := by
    simp [existsSync, hdir]
  have hrd : readdirSync fs addonsPath
      = Except.ok (pre ++ f :: post) := by
    simp [readdirSync, hdir]
  obtain ⟨hstop, hfat⟩ := scanFiles_fatal_stops validate fs addonsPath f post
    e hfatal pre [] false [] hbenign
  rcases hscan : scanFiles validate fs addonsPath (pre ++ [f]) [] false []
    with ⟨A, F, L, fat⟩
  rw [hscan] at hstop hfat
  simp only at hfat
  subst hfat
  have hrun : generateManifest validate gh st fs addonsPath manifestPath
      = ⟨fs, L, none, Except.error e⟩ := by
    simp [generateManifest, hex, hmp, hrd, hstop]
  exact ⟨by rw [hrun], by rw [hrun], by rw [hrun], hstop⟩

/-- C7 witness: the second of three descriptor files is unreadable; the
run aborts with the read error and the third file is never scanned. -/
theorem c7_fail_fast_non_validation_witness :
    (generateManifest (alwaysValid sampleAddon) ghNoop stNoop
        ⟨[("addons", FSNode.dir ["a.toml", "b.toml", "c.toml"]),
          ("addons/a.toml", FSNode.file (Content.raw "t")),
          ("addons/b.toml", FSNode.unreadable),
          ("addons/c.toml", FSNode.file (Content.raw "t"))]⟩
        "addons" none).result
      = Except.error "EACCES: permission denied, open addons/b.toml" := by
  have h := c7_fail_fast_non_validation (alwaysValid sampleAddon) ghNoop
    stNoop
    ⟨[("addons", FSNode.dir ["a.toml", "b.toml", "c.toml"]),
      ("addons/a.toml", FSNode.file (Content.raw "t")),
      ("addons/b.toml", FSNode.unreadable),
      ("addons/c.toml", FSNode.file (Content.raw "t"))]⟩
    "addons" none ["a.toml"] "b.toml" ["c.toml"]
    "EACCES: permission denied, open addons/b.toml" rfl (by simp)
    (by
      intro g hg
      rcases List.mem_cons.mp hg with rfl | hg
      · exact ⟨Content.raw "t", rfl, Or.inl ⟨sampleAddon, rfl⟩⟩
      · simp at hg)
    (Or.inl rfl)
  exact h.1

/-- A scan in which every file reads and validates successfully appends
exactly the validated add-ons, in directory order, with no flag, no new
logs and no fatal error. -/
theorem scanFiles_all_ok (validate : Validator) (fs : FileSystem)
    (addonsPath : String) (content : String → Content)
    (addonOf : String → Addon) :
    ∀ (files : List String) (addons : List Addon) (flag : Bool)
      (logs : List LogEntry),
      (∀ f ∈ files,
        readFileSync fs (pathJoin addonsPath f) = Except.ok (content f) ∧
        validate (content f) = ParseResult.ok (addonOf f)) →
      scanFiles validate fs addonsPath files addons flag logs
        = (addons ++ files.map addonOf, flag, logs, none)
  | [], addons, flag, logs, _ => by simp [scanFiles]
  | f :: rest, addons, flag, logs, h => by
    obtain ⟨hc, hv⟩ := h f (List.mem_cons_self f rest)
    have hrest := fun g hg => h g (List.mem_cons_of_mem f hg)
    simp only [scanFiles, hc, hv]
    rw [scanFiles_all_ok validate fs addonsPath content addonOf rest _ _ _
      hrest]
    simp

/-- The resolution loop treats every add-on independently: each output
entry is the update result of the corresponding input entry. -/
theorem resolveAll_map (gh : GithubResolver) (st : StandaloneResolver) :
    ∀ addons : List Addon,
      (resolveAll gh st addons).1
        = addons.map (fun a => (update gh st a).1)
  | [] => rfl
  | a :: rest => by
    simp only [resolveAll]
    cases (update gh st a).2 with
    | none => simp [resolveAll_map gh st rest]
    | some msg => simp [resolveAll_map gh st rest]

/-- Every add-on whose resolver throws gets an error log entry naming
its package name. -/
theorem resolveAll_logs_failure (gh : GithubResolver)
    (st : StandaloneResolver) :
    ∀ (addons : List Addon), ∀ a ∈ addons, ∀ msg,
      (update gh st a).2 = some msg →
      LogEntry.error ("Addon " ++ (update gh st a).1.package.name
          ++ " failed to update: " ++ msg) none
        ∈ (resolveAll gh st addons).2
  | [], a, ha, _, _ => by simp at ha
  | b :: rest, a, ha, msg, hmsg => by
    rcases List.mem_cons.mp ha with rfl | hatail
    · simp only [resolveAll, hmsg]
      exact List.mem_cons_self _ _
    · have ih := resolveAll_logs_failure gh st rest a hatail msg hmsg
      simp only [resolveAll]
      cases hb : (update gh st b).2 with
      | none => exact ih
      | some m => exact List.mem_cons_of_mem _ (List.mem_cons_of_mem _ ih)

/-- C5: resolution failures are isolated per add-on.  Each add-on of the
batch — including every one after a failing one — ends up in the output
exactly as its own resolver left it; a failing add-on is logged with its
package name and still appears with the fields it had when its
resolution failed; and for a batch that scans cleanly with no manifest
path, the pipeline emits exactly this resolved batch. -/
theorem c5_per_addon_isolation (gh : GithubResolver)
    (st : StandaloneResolver) :
    (∀ addons : List Addon,
      (resolveAll gh st addons).1
        = addons.map (fun a => (update gh st a).1)) ∧
    (∀ (addons : List Addon), ∀ a ∈ addons, ∀ msg,
      (update gh st a).2 = some msg →
      LogEntry.error ("Addon " ++ (update gh st a).1.package.name
          ++ " failed to update: " ++ msg) none
        ∈ (resolveAll gh st addons).2) ∧
    (∀ (validate : Validator) (fs : FileSystem) (addonsPath : String)
      (files : List String) (content : String → Content)
      (addonOf : String → Addon),
      fs.lookup addonsPath = some (FSNode.dir files) →
      (∀ f ∈ files,
        readFileSync fs (pathJoin addonsPath f) = Except.ok (content f) ∧
        validate (content f) = ParseResult.ok (addonOf f)) →
      generateManifest validate gh st fs addonsPath none
        = ⟨fs, (resolveAll gh st (files.map addonOf)).2,
           some (manifestToJson (resolveAll gh st (files.map addonOf)).1),
           Except.ok ()⟩) := by
  refine ⟨resolveAll_map gh st, resolveAll_logs_failure gh st, ?_⟩
  intro validate fs addonsPath files content addonOf hdir hfiles
  have hex : existsSync fs addonsPath = true := by
    simp [existsSync, hdir]
  have hrd : readdirSync fs addonsPath = Except.ok files := by
    simp [readdirSync, hdir]
  have hscan := scanFiles_all_ok validate fs addonsPath content addonOf
    files [] false [] hfiles
  simp [generateManifest, hex, hrd, hscan, loadAndMerge]

/-- C5 witness: a two-add-on batch whose first resolver fails after a
partial mutation; the first add-on keeps the partial mutation and is
logged, the second is resolved normally. -/
theorem c5_per_addon_isolation_witness :
    (resolveAll ghFail stNoop [addonG, sampleAddon]).1
      = [{ addonG with release := some "partial" }, sampleAddon] ∧
    LogEntry.error "Addon G failed to update: network down" none
      ∈ (resolveAll ghFail stNoop [addonG, sampleAddon]).2 := by
  constructor
  · rw [(c5_per_addon_isolation ghFail stNoop).1 [addonG, sampleAddon]]
    rfl
  · exact (c5_per_addon_isolation ghFail stNoop).2.1 [addonG, sampleAddon]
      addonG (List.mem_cons_self _ _) "network down" rfl

/-- A serialized list of strings decodes back to itself. -/
theorem decodeStrList_map_str : ∀ l : List String,
    decodeStrList (l.map Json.str) = some l
  | [] => rfl
  | s :: rest => by
    simp [decodeStrList, decodeStrList_map_str rest]

/-- A serialized add-on decodes to exactly the fields the merge step
needs: its id and its three carry-forward values. -/
theorem decodeOldEntry_addonToJson (a : Addon) :
    decodeOldEntry (addonToJson a)
      = Except.ok ⟨a.package.id, a.release, a.prerelease, a.addon_names⟩ := by
  obtain ⟨pkg, host, rel, pre, names⟩ := a
  cases rel <;> cases pre <;> cases names <;>
    simp [decodeOldEntry, addonToJson, optStrField, decodeStrList_map_str]

/-- Unfolding of `carryFirst` at a matching head. -/
theorem carryFirst_cons_pos (e : OldEntry) (a : Addon) (rest : List Addon)
    (h : a.package.id = e.id) :
    carryFirst e (a :: rest) = some (carryOnto a e :: rest) := by
  simp [carryFirst, h]

/-- Unfolding of `carryFirst` at a non-matching head. -/
theorem carryFirst_cons_neg (e : OldEntry) (a : Addon) (rest : List Addon)
    (h : ¬ a.package.id = e.id) :
    carryFirst e (a :: rest) = (carryFirst e rest).map (a :: ·) := by
  simp [carryFirst, h]

/-- `carryFirst` finds no add-on exactly when no add-on of the list has
the entry's id. -/
theorem carryFirst_eq_none (e : OldEntry) : ∀ addons : List Addon,
    carryFirst e addons = none ↔ ∀ a ∈ addons, a.package.id ≠ e.id
  | [] => by simp [carryFirst]
  | a :: rest => by
    by_cases h : a.package.id = e.id
    · rw [carryFirst_cons_pos e a rest h]
      simp [h]
    · rw [carryFirst_cons_neg e a rest h]
      simp [h, Option.map_eq_none, carryFirst_eq_none e rest]

/-- `carryFirst` never changes any `package` block. -/
theorem carryFirst_some_packages (e : OldEntry) : ∀ (addons res : List Addon),
    carryFirst e addons = some res →
    res.map (fun x => x.package) = addons.map (fun x => x.package)
  | [], res, h => by simp [carryFirst] at h
  | a :: rest, res, h => by
    by_cases ha : a.package.id = e.id
    · rw [carryFirst_cons_pos e a rest ha, Option.some_inj] at h
      subst h
      simp [carryOnto]
    · rw [carryFirst_cons_neg e a rest ha, Option.map_eq_some'] at h
      obtain ⟨res1, h1, rfl⟩ := h
      simp [carryFirst_some_packages e rest res1 h1]

/-- `carryFirst` never changes the sequence of package ids. -/
theorem carryFirst_some_ids (e : OldEntry) (addons res : List Addon)
    (h : carryFirst e addons = some res) :
    res.map (fun x => x.package.id) = addons.map (fun x => x.package.id) := by
  have hpkg := carryFirst_some_packages e addons res h
  calc res.map (fun x => x.package.id)
      = (res.map (fun x => x.package)).map (fun p => p.id) := by
        simp [List.map_map, Function.comp_def]
    _ = (addons.map (fun x => x.package)).map (fun p => p.id) := by rw [hpkg]
    _ = addons.map (fun x => x.package.id) := by
        simp [List.map_map, Function.comp_def]

/-- An add-on whose id differs from the entry's id survives
`carryFirst` untouched. -/
theorem carryFirst_mem_preserved (e : OldEntry) :
    ∀ (addons res : List Addon) (b : Addon),
    carryFirst e addons = some res → b ∈ addons → b.package.id ≠ e.id →
    b ∈ res
  | [], res, b, h, hb, _ => by simp at hb
  | a :: rest, res, b, h, hb, hbid => by
    by_cases ha : a.package.id = e.id
    · rw [carryFirst_cons_pos e a rest ha, Option.some_inj] at h
      subst h
      rcases List.mem_cons.mp hb with rfl | hbtail
      · exact absurd ha hbid
      · exact List.mem_cons_of_mem _ hbtail
    · rw [carryFirst_cons_neg e a rest ha, Option.map_eq_some'] at h
      obtain ⟨res1, h1, rfl⟩ := h
      rcases List.mem_cons.mp hb with rfl | hbtail
      · exact List.mem_cons_self _ _
      · exact List.mem_cons_of_mem _
          (carryFirst_mem_preserved e rest res1 b h1 hbtail hbid)

/-- When the ids are distinct and some add-on matches the entry,
`carryFirst` succeeds and the overwritten add-on is in the result. -/
theorem carryFirst_found (e : OldEntry) :
    ∀ (addons : List Addon) (a : Addon),
    (addons.map (fun x => x.package.id)).Nodup → a ∈ addons →
    a.package.id = e.id →
    ∃ res, carryFirst e addons = some res ∧ carryOnto a e ∈ res
  | [], a, _, ha, _ => by simp at ha
  | x :: rest, a, hnodup, ha, haid => by
    rcases List.mem_cons.mp ha with rfl | hatail
    · exact ⟨carryOnto a e :: rest, carryFirst_cons_pos e a rest haid,
        List.mem_cons_self _ _⟩
    · rw [List.map_cons, List.nodup_cons] at hnodup
      have hxid : x.package.id ≠ e.id := by
        intro hxe
        have hmem : a.package.id ∈ rest.map (fun y => y.package.id) :=
          List.mem_map_of_mem _ hatail
        rw [haid, ← hxe] at hmem
        exact hnodup.1 hmem
      obtain ⟨res1, h1, hmem1⟩ := carryFirst_found e rest a hnodup.2 hatail
        haid
      refine ⟨x :: res1, ?_, List.mem_cons_of_mem _ hmem1⟩
      rw [carryFirst_cons_neg e x rest hxid, h1]
      rfl

/-- The positional form of `carryFirst`: with no match before it, the
first matching add-on is overwritten in place and everything after it —
matching or not — is left untouched. -/
theorem carryFirst_split (e : OldEntry) :
    ∀ (pre : List Addon) (a : Addon) (post : List Addon),
    (∀ b ∈ pre, b.package.id ≠ e.id) → a.package.id = e.id →
    carryFirst e (pre ++ a :: post) = some (pre ++ carryOnto a e :: post)
  | [], a, post, _, haid => by
    simpa using carryFirst_cons_pos e a post haid
  | b :: pre, a, post, hpre, haid => by
    have hbid := hpre b (List.mem_cons_self b pre)
    have hrec := carryFirst_split e pre a post
      (fun x hx => hpre x (List.mem_cons_of_mem b hx)) haid
    rw [List.cons_append, carryFirst_cons_neg e b _ hbid, hrec]
    rfl

/-- Unfolding of the merge loop at a serialized head entry. -/
theorem mergeExisting_cons_serialized (o : Addon) (rest : List Json)
    (addons : List Addon) (logs : List LogEntry) :
    mergeExisting (addonToJson o :: rest) addons logs
      = match carryFirst (entryOf o) addons with
        | some addons1 => mergeExisting rest addons1 logs
        | none => mergeExisting rest addons
            (logs ++ [LogEntry.warning
              ("Addon " ++ o.package.id ++ " was removed from manifest!")]) := by
  simp only [mergeExisting, decodeOldEntry_addonToJson]
  rfl

/-- Merging a serialized manifest never aborts. -/
theorem mergeExisting_serialized_no_fatal :
    ∀ (olds addons : List Addon) (logs : List LogEntry),
    (mergeExisting (olds.map addonToJson) addons logs).2.2 = none
  | [], _, _ => rfl
  | o :: rest, addons, logs => by
    rw [List.map_cons, mergeExisting_cons_serialized]
    cases carryFirst (entryOf o) addons with
    | some addons1 =>
      exact mergeExisting_serialized_no_fatal rest addons1 logs
    | none => exact mergeExisting_serialized_no_fatal rest addons _

/-- Merging never changes the sequence of `package` blocks of the
batch: output entries come only from the batch. -/
theorem mergeExisting_serialized_packages :
    ∀ (olds addons : List Addon) (logs : List LogEntry),
    (mergeExisting (olds.map addonToJson) addons logs).1.map
        (fun x => x.package)
      = addons.map (fun x => x.package)
  | [], _, _ => rfl
  | o :: rest, addons, logs => by
    rw [List.map_cons, mergeExisting_cons_serialized]
    cases h : carryFirst (entryOf o) addons with
    | some addons1 =>
      rw [mergeExisting_serialized_packages rest addons1 logs]
      exact carryFirst_some_packages _ addons addons1 h
    | none => exact mergeExisting_serialized_packages rest addons _

/-- Merging never changes the sequence of package ids of the batch. -/
theorem mergeExisting_serialized_ids (olds addons : List Addon)
    (logs : List LogEntry) :
    (mergeExisting (olds.map addonToJson) addons logs).1.map
        (fun x => x.package.id)
      = addons.map (fun x => x.package.id) := by
  have hpkg := mergeExisting_serialized_packages olds addons logs
  calc (mergeExisting (olds.map addonToJson) addons logs).1.map
        (fun x => x.package.id)
      = ((mergeExisting (olds.map addonToJson) addons logs).1.map
          (fun x => x.package)).map (fun p => p.id) := by
        simp [List.map_map, Function.comp_def]
    _ = (addons.map (fun x => x.package)).map (fun p => p.id) := by rw [hpkg]
    _ = addons.map (fun x => x.package.id) := by
        simp [List.map_map, Function.comp_def]

/-- Log entries present before the merge survive the merge. -/
theorem mergeExisting_logs_mono (l : LogEntry) :
    ∀ (js : List Json) (addons : List Addon) (logs : List LogEntry),
    l ∈ logs → l ∈ (mergeExisting js addons logs).2.1
  | [], _, _, hl => hl
  | j :: rest, addons, logs, hl => by
    simp only [mergeExisting]
    cases decodeOldEntry j with
    | error e => exact hl
    | ok entry =>
      dsimp only
      cases carryFirst entry addons with
      | some addons1 => exact mergeExisting_logs_mono l rest addons1 logs hl
      | none =>
        exact mergeExisting_logs_mono l rest addons _
          (List.mem_append_left _ hl)

/-- An add-on whose id matches no old entry is never touched by the
merge. -/
theorem mergeExisting_mem_preserved (b : Addon) :
    ∀ (olds addons : List Addon) (logs : List LogEntry),
    b ∈ addons → (∀ o ∈ olds, o.package.id ≠ b.package.id) →
    b ∈ (mergeExisting (olds.map addonToJson) addons logs).1
  | [], _, _, hb, _ => hb
  | o :: rest, addons, logs, hb, h => by
    have hrest := fun x hx => h x (List.mem_cons_of_mem o hx)
    have hbid : b.package.id ≠ (entryOf o).id :=
      fun hx => h o (List.mem_cons_self o rest) hx.symm
    rw [List.map_cons, mergeExisting_cons_serialized]
    cases hc : carryFirst (entryOf o) addons with
    | some addons1 =>
      exact mergeExisting_mem_preserved b rest addons1 logs
        (carryFirst_mem_preserved _ addons addons1 b hc hb hbid) hrest
    | none => exact mergeExisting_mem_preserved b rest addons _ hb hrest

/-- An old entry with no matching add-on in the batch produces its
removal warning. -/
theorem mergeExisting_warning :
    ∀ (olds addons : List Addon) (logs : List LogEntry) (o : Addon),
    o ∈ olds → o.package.id ∉ addons.map (fun a => a.package.id) →
    LogEntry.warning ("Addon " ++ o.package.id ++ " was removed from manifest!")
      ∈ (mergeExisting (olds.map addonToJson) addons logs).2.1
  | [], _, _, o, ho, _ => by simp at ho
  | o1 :: rest, addons, logs, o, ho, hid => by
    rw [List.map_cons, mergeExisting_cons_serialized]
    rcases List.mem_cons.mp ho with rfl | hotail
    · have hnone : carryFirst (entryOf o) addons = none := by
        rw [carryFirst_eq_none]
        intro a ha hax
        have hax1 : a.package.id = o.package.id := hax
        exact hid (by rw [← hax1]; exact List.mem_map_of_mem _ ha)
      rw [hnone]
      exact mergeExisting_logs_mono _ _ addons _
        (List.mem_append_right _ (List.mem_singleton.mpr rfl))
    · cases hc : carryFirst (entryOf o1) addons with
      | some addons1 =>
        have hid1 : o.package.id ∉ addons1.map (fun a => a.package.id) := by
          rw [carryFirst_some_ids _ addons addons1 hc]
          exact hid
        exact mergeExisting_warning rest addons1 logs o hotail hid1
      | none => exact mergeExisting_warning rest addons _ o hotail hid

/-- The heart of carry-forward exactness: with distinct ids on both
sides, the add-on matching an old entry ends up in the merged batch with
the old entry's three fields copied verbatim. -/
theorem mergeExisting_carries :
    ∀ (olds addons : List Addon) (logs : List LogEntry) (o a : Addon),
    (olds.map (fun x => x.package.id)).Nodup →
    (addons.map (fun x => x.package.id)).Nodup →
    o ∈ olds → a ∈ addons → a.package.id = o.package.id →
    carryOnto a (entryOf o)
      ∈ (mergeExisting (olds.map addonToJson) addons logs).1
  | [], _, _, _, _, _, _, ho, _, _ => by simp at ho
  | o1 :: rest, addons, logs, o, a, hnodupO, hnodupA, ho, ha, haid => by
    rw [List.map_cons, List.nodup_cons] at hnodupO
    rw [List.map_cons, mergeExisting_cons_serialized]
    rcases List.mem_cons.mp ho with rfl | hotail
    · obtain ⟨res, hres, hmem⟩ := carryFirst_found (entryOf o) addons a
        hnodupA ha haid
      rw [hres]
      have hids : ∀ o2 ∈ rest, o2.package.id ≠ (carryOnto a (entryOf o)).package.id := by
        intro o2 ho2 hx
        refine hnodupO.1 ?_
        have : (carryOnto a (entryOf o)).package.id = a.package.id := rfl
        rw [this, haid] at hx
        rw [← hx]
        exact List.mem_map_of_mem _ ho2
      exact mergeExisting_mem_preserved _ rest res logs hmem hids
    · have ho1a : a.package.id ≠ (entryOf o1).id := by
        intro hx
        refine hnodupO.1 ?_
        have hx1 : a.package.id = o1.package.id := hx
        rw [haid] at hx1
        rw [← hx1]
        exact List.mem_map_of_mem _ hotail
      cases hc : carryFirst (entryOf o1) addons with
      | some addons1 =>
        have hnodupA1 : (addons1.map (fun x => x.package.id)).Nodup := by
          rw [carryFirst_some_ids _ addons addons1 hc]
          exact hnodupA
        dsimp only
        exact mergeExisting_carries rest addons1 logs o a hnodupO.2
          hnodupA1 hotail
          (carryFirst_mem_preserved _ addons addons1 a hc ha ho1a) haid
      | none =>
        dsimp only
        exact mergeExisting_carries rest addons _ o a hnodupO.2 hnodupA
          hotail ha haid

/-- A freshly written file reads back as written. -/
theorem readFileSync_write_self (fs : FileSystem) (p : String)
    (c : Content) :
    readFileSync (fs.write p c) p = Except.ok c := by
  simp [readFileSync, FileSystem.write, FileSystem.lookup]

/-- Shape of a successful run with a manifest path whose file already
exists: the scan collects the batch, the merge runs on it, resolution
runs on the merged batch, and the resolved manifest is written to the
manifest path. -/
theorem generateManifest_manifest_run (validate : Validator)
    (gh : GithubResolver) (st : StandaloneResolver) (fs : FileSystem)
    (addonsPath mp : String) (files : List String)
    (content : String → Content) (addonOf : String → Addon)
    (js : List Json) (merged : List Addon) (mlogs : List LogEntry)
    (hdir : fs.lookup addonsPath = some (FSNode.dir files))
    (hmp : mp ≠ "")
    (hfiles : ∀ f ∈ files,
      readFileSync fs (pathJoin addonsPath f) = Except.ok (content f) ∧
      validate (content f) = ParseResult.ok (addonOf f))
    (hman : fs.lookup mp
      = some (FSNode.file (Content.jsonDoc (Json.arr js))))
    (hmerge : mergeExisting js (files.map addonOf) []
      = (merged, mlogs, none)) :
    generateManifest validate gh st fs addonsPath (some mp)
      = ⟨fs.write mp
          (Content.jsonDoc (manifestToJson (resolveAll gh st merged).1)),
         mlogs ++ (resolveAll gh st merged).2, none, Except.ok ()⟩ := by
  have hex : existsSync fs addonsPath = true := by
    simp [existsSync, hdir]
  have hexm : existsSync fs mp = true := by
    simp [existsSync, hman]
  have hrd : readdirSync fs addonsPath = Except.ok files := by
    simp [readdirSync, hdir]
  have hread : readFileSync fs mp
      = Except.ok (Content.jsonDoc (Json.arr js)) := by
    simp [readFileSync, hman]
  have hscan := scanFiles_all_ok validate fs addonsPath content addonOf
    files [] false [] hfiles
  have hmpne : (some mp : Option String) ≠ some "" := by
    simpa using hmp
  simp [generateManifest, hex, hmpne, hrd, hscan, loadAndMerge, hexm,
    hread, jsonParse, jsIterate, hmerge]

/-- C4: when ids are unique on both sides, each add-on of the batch
matching an old manifest entry is overwritten — `release`, `prerelease`
and `addon_names` replaced wholesale with the old entry's values — the
merge succeeds, the carry-forward load is exactly this merge, and in a
full run the resolution step receives the already-merged batch. -/
theorem c4_carry_forward_exactness (olds addons : List Addon)
    (logs : List LogEntry) (o a : Addon)
    (hnodupO : (olds.map (fun x => x.package.id)).Nodup)
    (hnodupA : (addons.map (fun x => x.package.id)).Nodup)
    (ho : o ∈ olds) (ha : a ∈ addons)
    (hid : a.package.id = o.package.id) :
    (mergeExisting (olds.map addonToJson) addons logs).2.2 = none ∧
    carryOnto a (entryOf o)
      ∈ (mergeExisting (olds.map addonToJson) addons logs).1 ∧
    (∀ (fs : FileSystem) (mp : String),
      fs.lookup mp = some (FSNode.file
        (Content.jsonDoc (Json.arr (olds.map addonToJson)))) →
      loadAndMerge fs (some mp) addons logs
        = mergeExisting (olds.map addonToJson) addons logs) ∧
    (∀ (validate : Validator) (gh : GithubResolver)
      (st : StandaloneResolver) (fs : FileSystem) (addonsPath mp : String)
      (files : List String) (content : String → Content)
      (addonOf : String → Addon),
      fs.lookup addonsPath = some (FSNode.dir files) → mp ≠ "" →
      (∀ f ∈ files,
        readFileSync fs (pathJoin addonsPath f) = Except.ok (content f) ∧
        validate (content f) = ParseResult.ok (addonOf f)) →
      files.map addonOf = addons →
      fs.lookup mp = some (FSNode.file
        (Content.jsonDoc (Json.arr (olds.map addonToJson)))) →
      generateManifest validate gh st fs addonsPath (some mp)
        = ⟨fs.write mp (Content.jsonDoc (manifestToJson
            (resolveAll gh st
              (mergeExisting (olds.map addonToJson) addons []).1).1)),
           (mergeExisting (olds.map addonToJson) addons []).2.1
             ++ (resolveAll gh st
                  (mergeExisting (olds.map addonToJson) addons []).1).2,
           none, Except.ok ()⟩) := by
  refine ⟨mergeExisting_serialized_no_fatal olds addons logs,
    mergeExisting_carries olds addons logs o a hnodupO hnodupA ho ha hid,
    ?_, ?_⟩
  · intro fs mp hman
    have hexm : existsSync fs mp = true := by
      simp [existsSync, hman]
    have hread : readFileSync fs mp
        = Except.ok (Content.jsonDoc (Json.arr (olds.map addonToJson))) := by
      simp [readFileSync, hman]
    simp [loadAndMerge, hexm, hread, jsonParse, jsIterate]
  · intro validate gh st fs addonsPath mp files content addonOf hdir hmp
      hfiles hbatch hman
    rcases hm : mergeExisting (olds.map addonToJson) addons [] with
      ⟨merged, mlogs, fat⟩
    have hfat := mergeExisting_serialized_no_fatal olds addons []
    rw [hm] at hfat
    simp only at hfat
    subst hfat
    have := generateManifest_manifest_run validate gh st fs addonsPath mp
      files content addonOf (olds.map addonToJson) merged mlogs hdir hmp
      hfiles hman (by rw [hbatch]; exact hm)
    rw [this]

/-- C4 witness: an old entry for id `a` with `release = "1.2.0"` and
`addon_names = ["Foo"]` carried onto a fresh descriptor for `a` with no
release info gives exactly those values. -/
theorem c4_carry_forward_exactness_witness :
    carryOnto sampleAddon (entryOf oldCarry)
      ∈ (mergeExisting [addonToJson oldCarry] [sampleAddon] []).1 ∧
    (carryOnto sampleAddon (entryOf oldCarry)).release = some "1.2.0" ∧
    (carryOnto sampleAddon (entryOf oldCarry)).addon_names
      = some ["Foo"] := by
  refine ⟨?_, rfl, rfl⟩
  have h := c4_carry_forward_exactness [oldCarry] [sampleAddon] []
    oldCarry sampleAddon (by simp) (by simp)
    (List.mem_singleton.mpr rfl) (List.mem_singleton.mpr rfl) rfl
  simpa using h.2.1

/-- C8: an old manifest entry whose id is absent from the new batch
yields its removal warning, the merge still succeeds, the dropped entry
appears nowhere in the output (whose entries are exactly the batch
packages), and a full run over such a manifest still completes and
writes a manifest. -/
theorem c8_dropped_carry_forward (olds addons : List Addon)
    (logs : List LogEntry) (o : Addon) (ho : o ∈ olds)
    (hid : o.package.id ∉ addons.map (fun a => a.package.id)) :
    (mergeExisting (olds.map addonToJson) addons logs).2.2 = none ∧
    LogEntry.warning
        ("Addon " ++ o.package.id ++ " was removed from manifest!")
      ∈ (mergeExisting (olds.map addonToJson) addons logs).2.1 ∧
    (mergeExisting (olds.map addonToJson) addons logs).1.map
        (fun x => x.package)
      = addons.map (fun x => x.package) ∧
    (∀ (validate : Validator) (gh : GithubResolver)
      (st : StandaloneResolver) (fs : FileSystem) (addonsPath mp : String)
      (files : List String) (content : String → Content)
      (addonOf : String → Addon),
      fs.lookup addonsPath = some (FSNode.dir files) → mp ≠ "" →
      (∀ f ∈ files,
        readFileSync fs (pathJoin addonsPath f) = Except.ok (content f) ∧
        validate (content f) = ParseResult.ok (addonOf f)) →
      files.map addonOf = addons →
      fs.lookup mp = some (FSNode.file
        (Content.jsonDoc (Json.arr (olds.map addonToJson)))) →
      (generateManifest validate gh st fs addonsPath (some mp)).result
        = Except.ok () ∧
      readFileSync (generateManifest validate gh st fs addonsPath
          (some mp)).fs mp
        = Except.ok (Content.jsonDoc (manifestToJson
            (resolveAll gh st
              (mergeExisting (olds.map addonToJson) addons []).1).1))) := by
  refine ⟨mergeExisting_serialized_no_fatal olds addons logs,
    mergeExisting_warning olds addons logs o ho hid,
    mergeExisting_serialized_packages olds addons logs, ?_⟩
  intro validate gh st fs addonsPath mp files content addonOf hdir hmp
    hfiles hbatch hman
  rcases hm : mergeExisting (olds.map addonToJson) addons [] with
    ⟨merged, mlogs, fat⟩
  have hfat := mergeExisting_serialized_no_fatal olds addons []
  rw [hm] at hfat
  simp only at hfat
  subst hfat
  have hrun := generateManifest_manifest_run validate gh st fs addonsPath
    mp files content addonOf (olds.map addonToJson) merged mlogs hdir hmp
    hfiles hman (by rw [hbatch]; exact hm)
  rw [hrun]
  exact ⟨rfl, readFileSync_write_self fs mp _⟩

/-- C8 witness: an old entry with id `b` absent from a batch holding
only id `a`; the merge warns, drops it, and leaves the batch packages
unchanged. -/
theorem c8_dropped_carry_forward_witness :
    LogEntry.warning "Addon b was removed from manifest!"
      ∈ (mergeExisting [addonToJson sampleAddonB] [sampleAddon] []).2.1 ∧
    (mergeExisting [addonToJson sampleAddonB] [sampleAddon] []).1.map
        (fun x => x.package)
      = [sampleAddon].map (fun x => x.package) := by
  have h := c8_dropped_carry_forward [sampleAddonB] [sampleAddon] []
    sampleAddonB (List.mem_singleton.mpr rfl) (by decide)
  exact ⟨by simpa using h.2.1, by simpa using h.2.2.1⟩

/-- C9: when the batch contains several add-ons with the same id, the
merge step copies the old entry's fields only onto the first one in
batch order; every add-on after it — same id or not — is left exactly as
it was. -/
theorem c9_duplicate_ids_first_match_only (old : Addon)
    (pre : List Addon) (a : Addon) (post : List Addon)
    (logs : List LogEntry)
    (hpre : ∀ b ∈ pre, b.package.id ≠ old.package.id)
    (hid : a.package.id = old.package.id) :
    mergeExisting [addonToJson old] (pre ++ a :: post) logs
      = (pre ++ carryOnto a (entryOf old) :: post, logs, none) := by
  have hsplit := carryFirst_split (entryOf old) pre a post
    (fun b hb => hpre b hb) hid
  have hcons : ([addonToJson old] : List Json)
      = addonToJson old :: ([] : List Json) := rfl
  rw [hcons, mergeExisting_cons_serialized, hsplit]
  rfl

/-- C9 witness: a batch with two add-ons of id `a`; only the first
receives the carried fields, the duplicate after it is untouched. -/
theorem c9_duplicate_ids_first_match_only_witness :
    mergeExisting [addonToJson oldCarry] [sampleAddon, dupAddon] []
      = ([carryOnto sampleAddon (entryOf oldCarry), dupAddon], [],
         none) ∧
    dupAddon.release = none ∧ dupAddon.addon_names = none := by
  refine ⟨?_, rfl, rfl⟩
  have h := c9_duplicate_ids_first_match_only oldCarry [] sampleAddon
    [dupAddon] [] (by simp) rfl
  simpa using h

end GenerateLoadingScreen
